import Mathlib

/-!
Shallow embedding of the task filtering, progress, and day-completion logic
of the notebook-todo application (src/notebook-todo/src/TodoPage.jsx),
together with theorems settling the specification's claims about it.
-/

namespace Todo

/-- A JavaScript `Date` value as used by the date classifiers: `new Date(s)`
determines both an epoch instant (compared by `<` / `>`) and local calendar
components (read by `getFullYear` / `getMonth` / `getDate`). -/
structure JSDate where
  epoch : Int
  year : Int
  month : Int
  day : Int
  deriving Repr, DecidableEq

/-- A task document as stored in the `todos` collection (see `handleAdd` and
the snapshot mapping in TodoPage.jsx). `dueDate` is `none` when the stored
value is `null` or the empty string (both falsy in the source's checks). -/
structure Task where
  id : String
  text : String
  completed : Bool
  uid : String
  created : Int
  dueDate : Option JSDate
  priority : String
  notes : String
  deriving Repr, DecidableEq

/-- The transient filter state held by the page component: the status filter
`filter`, the `priorityFilter`, and the `search` text. -/
structure FilterState where
  filter : String
  priorityFilter : String
  search : String
  deriving Repr, DecidableEq

/-- `isToday(dateStr)` from TodoPage.jsx: false for an absent date, else the
due date's calendar year/month/day equal today's. -/
def isToday (now : JSDate) : Option JSDate → Bool
  | none => false
  | some d => d.year = now.year && d.month = now.month && d.day = now.day

/-- `isUpcoming(dateStr)` from TodoPage.jsx: false for an absent date, else
the due instant is strictly after the current instant. -/
def isUpcoming (now : JSDate) : Option JSDate → Bool
  | none => false
  | some d => now.epoch < d.epoch

/-- `isOverdue(dateStr, completed)` from TodoPage.jsx: false when the date is
absent or the task is completed, else the due instant is strictly before the
current instant and the due date is not today. -/
def isOverdue (now : JSDate) (dueDate : Option JSDate) (completed : Bool) : Bool :=
  match dueDate, completed with
  | none, _ => false
  | some _, true => false
  | some d, false => d.epoch < now.epoch && !isToday now (some d)

/-- `s.toLowerCase()` on the strings involved (ASCII case mapping). -/
def jsToLower (s : String) : String := ⟨s.toList.map Char.toLower⟩

/-- `a.includes(b)` — substring containment on JavaScript strings. -/
def jsIncludes (a b : String) : Bool := decide (b.toList <:+: a.toList)

/-- The per-task predicate of the `filteredTodos` pipeline
(TodoPage.jsx lines 1224-1233), clause for clause: search text, priority
filter, then the mutually exclusive status branches with `true` as the
fall-through. -/
def taskPred (now : JSDate) (fs : FilterState) (todo : Task) : Bool :=
  if fs.search ≠ "" && !(jsIncludes (jsToLower todo.text) (jsToLower fs.search)) then false
  else if fs.priorityFilter ≠ "all" && todo.priority ≠ fs.priorityFilter then false
  else if fs.filter = "active" then !todo.completed
  else if fs.filter = "completed" then todo.completed
  else if fs.filter = "today" then isToday now todo.dueDate
  else if fs.filter = "upcoming" then isUpcoming now todo.dueDate
  else if fs.filter = "overdue" then isOverdue now todo.dueDate todo.completed
  else true

/-- `filteredTodos = todos.filter(...)` from TodoPage.jsx. -/
def filteredTodos (now : JSDate) (fs : FilterState) (todos : List Task) : List Task :=
  todos.filter (taskPred now fs)

/-- `completedCount = todos.filter(t => t.completed).length` (line 1234). -/
def completedCount (todos : List Task) : Nat :=
  (todos.filter (fun t => t.completed)).length

/-- JavaScript `Math.round` on a (finite, non-`NaN`) value: round half toward
positive infinity, i.e. `⌊x + 1/2⌋`. -/
def jsMathRound (q : ℚ) : Int := ⌊q + 1/2⌋

/-- `percent = todos.length ? Math.round((completedCount / todos.length) * 100) : 0`
(line 1235). -/
def percent (todos : List Task) : Nat :=
  if todos.length = 0 then 0
  else (jsMathRound ((completedCount todos : ℚ) / (todos.length : ℚ) * 100)).toNat

/-- The record shape of the progress aggregator's result
(`computeProgress` in the specification, §4.3). -/
structure Progress where
  completedCount : Nat
  total : Nat
  percent : Nat
  deriving Repr, DecidableEq

/-- The progress aggregate the page computes from the full `todos` collection:
the pair of constants at TodoPage.jsx lines 1234-1235 together with the total. -/
def computeProgress (todos : List Task) : Progress :=
  ⟨completedCount todos, todos.length, percent todos⟩

/-- Everything the render body derives from the collection and the filter
state at lines 1224-1235: the visible list, the completed count, and the
progress percent. `completedCount` and `percent` read `todos`, never
`filteredTodos`. -/
structure RenderData where
  filtered : List Task
  completedCount : Nat
  percent : Nat
  deriving Repr, DecidableEq

/-- The derivation performed on every render (TodoPage.jsx lines 1224-1235). -/
def renderData (now : JSDate) (fs : FilterState) (todos : List Task) : RenderData :=
  ⟨filteredTodos now fs todos, completedCount todos, percent todos⟩

/-- JavaScript `String.prototype.trim` whitespace (the characters relevant
to the source's inputs). -/
def jsIsWhitespace (c : Char) : Bool :=
  c = ' ' || c = '\t' || c = '\n' || c = '\r' || c = '\x0b' || c = '\x0c'

/-- `input.trim()` as used by `handleAdd`. -/
def jsTrim (s : String) : String :=
  ⟨(((s.toList.dropWhile jsIsWhitespace).reverse.dropWhile jsIsWhitespace).reverse)⟩

/-- The field set `handleAdd` sends to `addDoc` when it does write. -/
structure NewTaskFields where
  text : String
  completed : Bool
  uid : String
  created : Int
  dueDate : Option JSDate
  priority : String
  deriving Repr, DecidableEq

/-- `handleAdd` (TodoPage.jsx lines 1110-1124): if `input.trim()` is falsy
(empty) it returns before any store call; otherwise it issues exactly one
`addDoc` with the listed fields. `none` means no store write was issued. -/
def handleAdd (input : String) (dueDate : Option JSDate) (priority : String)
    (uid : String) (created : Int) : Option NewTaskFields :=
  if jsTrim input = "" then none
  else some ⟨input, false, uid, created, dueDate, priority⟩

/-- Outcome of the `handleFinishDay` loop: the ids whose `updateDoc` call
completed, the resulting store state, and the error (`some id`) that aborted
the loop, if any. -/
structure FinishDayResult where
  updatedIds : List String
  todos : List Task
  err : Option String
  deriving Repr, DecidableEq

/-- `handleFinishDay` (TodoPage.jsx lines 1199-1208): iterate the collection
in order; for each incomplete task await `updateDoc(..., { completed: true })`.
`fails` models which store writes reject; a rejected `await` propagates out of
the surrounding `async` function, so the loop stops at the first failure and
the remaining tasks are never touched. -/
def handleFinishDay (fails : String → Bool) : List Task → FinishDayResult
  | [] => ⟨[], [], none⟩
  | t :: rest =>
    if t.completed then
      let r := handleFinishDay fails rest
      ⟨r.updatedIds, t :: r.todos, r.err⟩
    else if fails t.id then
      ⟨[], t :: rest, some t.id⟩
    else
      let r := handleFinishDay fails rest
      ⟨t.id :: r.updatedIds, { t with completed := true } :: r.todos, r.err⟩

/-- Marking a task complete, as `updateDoc(..., { completed: true })` leaves
it in the store. -/
def markDone (t : Task) : Task := { t with completed := true }

/-- The reporting requirement of the specification's PartialBulkFailure
taxonomy entry: after a day-completion run, every incomplete task of the
input has a reported outcome — its id appears among the successful updates,
or it is the reported failure. -/
def reportsAllOutcomes (fails : String → Bool) (todos : List Task) : Prop :=
  ∀ t ∈ todos, t.completed = false →
    t.id ∈ (handleFinishDay fails todos).updatedIds
    ∨ (handleFinishDay fails todos).err = some t.id

/-! ### Helper lemmas -/

lemma markDone_eq_self {t : Task} (h : t.completed = true) : markDone t = t := by
  cases t
  simp [markDone] at h ⊢
  exact h

lemma completedCount_le_length (todos : List Task) : completedCount todos ≤ todos.length :=
  List.length_filter_le _ _

lemma completedCount_eq_countP (T : List Task) :
    completedCount T = T.countP (fun t => t.completed) :=
  (List.countP_eq_length_filter _ _).symm

/-- The `Math.round((c / t) * 100)` expression, evaluated over the rationals,
equals the integer computation `(200 * c + t) / (2 * t)` in natural-number
(flooring) division. -/
lemma percent_eq (todos : List Task) (h : todos.length ≠ 0) :
    percent todos = (200 * completedCount todos + todos.length) / (2 * todos.length) := by
  unfold percent jsMathRound
  rw [if_neg h]
  have ht : ((todos.length : ℚ)) ≠ 0 := Nat.cast_ne_zero.mpr h
  have hq : (completedCount todos : ℚ) / (todos.length : ℚ) * 100 + 1/2
      = ((200 * completedCount todos + todos.length : ℕ) : ℚ)
        / ((2 * todos.length : ℕ) : ℚ) := by
    push_cast
    field_simp
    ring
  rw [hq, Int.floor_toNat, Nat.floor_div_eq_div]

lemma taskPred_identity (now : JSDate) (t : Task) :
    taskPred now ⟨"all", "all", ""⟩ t = true := rfl

/-! ### The claims -/

/-- C5: for every task collection, the filter pipeline's output is a
subsequence of its input — every output element occurs in the input and the
relative order is preserved, with no duplication. -/
theorem filteredTodos_sublist (now : JSDate) (fs : FilterState) (todos : List Task) :
    (filteredTodos now fs todos).Sublist todos :=
  List.filter_sublist todos

/-- C8: filtering with the identity filter state (status `all`, priority
`all`, empty search text) returns the collection unchanged. -/
theorem filteredTodos_identity (now : JSDate) (todos : List Task) :
    filteredTodos now ⟨"all", "all", ""⟩ todos = todos :=
  List.filter_eq_self.mpr (fun t _ => taskPred_identity now t)

/-- C9: an attempted create with empty task text is rejected before any call
reaches the store collaborator — `handleAdd` returns (result `none`) without
issuing the `addDoc` write, whatever the other form fields hold. -/
theorem handleAdd_empty_text_rejected (dueDate : Option JSDate) (priority : String)
    (uid : String) (created : Int) :
    handleAdd "" dueDate priority uid created = none := rfl

/-- C6: `isOverdue` is false when the task is completed or the due date is
absent, and otherwise true exactly when the due instant is strictly before
the current instant and the due date is not today; consequently a completed
task is never overdue, and `isToday` and `isOverdue _ false` never both hold. -/
theorem isOverdue_spec (now : JSDate) (d : Option JSDate) :
    isOverdue now d true = false
    ∧ isOverdue now none false = false
    ∧ (∀ v : JSDate, isOverdue now (some v) false
        = (decide (v.epoch < now.epoch) && !isToday now (some v)))
    ∧ (isToday now d && isOverdue now d false) = false := by
  refine ⟨?_, rfl, fun v => rfl, ?_⟩
  · cases d <;> rfl
  · cases d with
    | none => rfl
    | some v =>
      simp only [isOverdue]
      cases h : isToday now (some v) <;> simp [h]

/-- C10: a status filter value outside the recognized branch labels falls
through every `if` to the final `return true`, so the pipeline never errors
and behaves exactly as status `all`: the output is decided by the search and
priority clauses alone. -/
theorem unknown_statusFilter_as_all (now : JSDate) (fs : FilterState) (todos : List Task)
    (h1 : fs.filter ≠ "active") (h2 : fs.filter ≠ "completed") (h3 : fs.filter ≠ "today")
    (h4 : fs.filter ≠ "upcoming") (h5 : fs.filter ≠ "overdue") :
    filteredTodos now fs todos
      = filteredTodos now ⟨"all", fs.priorityFilter, fs.search⟩ todos := by
  unfold filteredTodos
  apply List.filter_congr
  intro t _
  simp [taskPred, h1, h2, h3, h4, h5]

/-- Witness for C10 at the unrecognized status value `someday`. -/
theorem unknown_statusFilter_as_all_witness :
    (("someday" : String) ≠ "active") ∧ (("someday" : String) ≠ "completed")
    ∧ (("someday" : String) ≠ "today") ∧ (("someday" : String) ≠ "upcoming")
    ∧ (("someday" : String) ≠ "overdue")
    ∧ filteredTodos ⟨0, 2024, 0, 1⟩ ⟨"someday", "all", ""⟩
        [⟨"a", "x", false, "u", 0, none, "medium", ""⟩]
      = filteredTodos ⟨0, 2024, 0, 1⟩ ⟨"all", "all", ""⟩
        [⟨"a", "x", false, "u", 0, none, "medium", ""⟩] := by
  refine ⟨by decide, by decide, by decide, by decide, by decide, ?_⟩
  exact unknown_statusFilter_as_all _ _ _ (by decide) (by decide) (by decide) (by decide)
    (by decide)

/-- C7: a task passes the pipeline only if, when the search text is
non-empty, its text contains the search text case-insensitively, and, when
the priority filter is not `all`, its priority is exactly (case-sensitively)
the filter value; hence a task with priority `Medium` only ever matches the
priority filters `all` and `Medium`, never `high` or `medium`. -/
theorem filteredTodos_search_priority_necessary (now : JSDate) (fs : FilterState)
    (todos : List Task) (t : Task) (h : t ∈ filteredTodos now fs todos) :
    (fs.search ≠ "" → jsIncludes (jsToLower t.text) (jsToLower fs.search) = true)
    ∧ (fs.priorityFilter ≠ "all" → t.priority = fs.priorityFilter)
    ∧ (t.priority = "Medium" → fs.priorityFilter ≠ "high" ∧ fs.priorityFilter ≠ "medium") := by
  have hp : taskPred now fs t = true := (List.mem_filter.mp h).2
  unfold taskPred at hp
  by_cases hc1 : (decide (fs.search ≠ "")
      && !(jsIncludes (jsToLower t.text) (jsToLower fs.search))) = true
  · rw [if_pos hc1] at hp
    exact absurd hp (by simp)
  · rw [if_neg hc1] at hp
    by_cases hc2 : (decide (fs.priorityFilter ≠ "all")
        && decide (t.priority ≠ fs.priorityFilter)) = true
    · rw [if_pos hc2] at hp
      exact absurd hp (by simp)
    · have hsearch : fs.search ≠ "" → jsIncludes (jsToLower t.text) (jsToLower fs.search) = true := by
        intro hne
        simp [hne] at hc1
        exact hc1
      have hprio : fs.priorityFilter ≠ "all" → t.priority = fs.priorityFilter := by
        intro hne
        simp [hne] at hc2
        exact hc2
      refine ⟨hsearch, hprio, ?_⟩
      intro hmed
      constructor
      · intro hPF
        have heq := hprio (by rw [hPF]; decide)
        rw [hmed, hPF] at heq
        exact absurd heq (by decide)
      · intro hPF
        have heq := hprio (by rw [hPF]; decide)
        rw [hmed, hPF] at heq
        exact absurd heq (by decide)

/-- Witness for C7: the spec's case-insensitive search scenario, search text
`DOG` against task text `Walk dog`, with priority filter `high` against a
`high`-priority task. -/
theorem filteredTodos_search_priority_necessary_witness :
    (⟨"a", "Walk dog", false, "u", 0, none, "high", ""⟩ : Task)
      ∈ filteredTodos ⟨0, 2024, 0, 1⟩ ⟨"all", "high", "DOG"⟩
          [⟨"a", "Walk dog", false, "u", 0, none, "high", ""⟩]
    ∧ jsIncludes (jsToLower "Walk dog") (jsToLower "DOG") = true
    ∧ ("high" : String) = "high" := by
  have hmem : (⟨"a", "Walk dog", false, "u", 0, none, "high", ""⟩ : Task)
      ∈ filteredTodos ⟨0, 2024, 0, 1⟩ ⟨"all", "high", "DOG"⟩
          [⟨"a", "Walk dog", false, "u", 0, none, "high", ""⟩] := by decide
  have h := filteredTodos_search_priority_necessary _ _ _ _ hmem
  exact ⟨hmem, h.1 (by decide), h.2.1 (by decide)⟩

/-- C2: when no store write fails, the day-completion loop issues exactly one
completion update per incomplete task (in collection order) and none for
already-completed tasks; the resulting store state marks every task complete,
so the post-update summary's completed count equals its total. -/
theorem handleFinishDay_success (todos : List Task) :
    (handleFinishDay (fun _ => false) todos).updatedIds
      = (todos.filter (fun t => !t.completed)).map Task.id
    ∧ (handleFinishDay (fun _ => false) todos).todos = todos.map markDone
    ∧ (computeProgress ((handleFinishDay (fun _ => false) todos).todos)).completedCount
      = (computeProgress ((handleFinishDay (fun _ => false) todos).todos)).total := by
  have key : ∀ l : List Task, (handleFinishDay (fun _ => false) l).updatedIds
      = (l.filter (fun t => !t.completed)).map Task.id
      ∧ (handleFinishDay (fun _ => false) l).todos = l.map markDone := by
    intro l
    induction l with
    | nil => exact ⟨rfl, rfl⟩
    | cons t rest ih =>
      cases hc : t.completed with
      | true => simp [handleFinishDay, hc, ih.1, ih.2, markDone_eq_self hc]
      | false => simp [handleFinishDay, hc, ih.1, ih.2, markDone]
  refine ⟨(key todos).1, (key todos).2, ?_⟩
  rw [(key todos).2]
  simp only [computeProgress, completedCount]
  rw [List.filter_eq_self.mpr]
  intro x hx
  obtain ⟨y, _, rfl⟩ := List.mem_map.mp hx
  rfl

/-- C3, counterexample: with two incomplete tasks `a` and `b` where the
update for `a` rejects, the loop aborts at `a`: no update for `b` is ever
issued and the run reports no outcome for it — the operation does not report
which task ids succeeded and which failed. -/
theorem handleFinishDay_not_reportsAllOutcomes :
    ¬ reportsAllOutcomes (fun i => i == "a")
      [⟨"a", "task a", false, "u", 0, none, "medium", ""⟩,
       ⟨"b", "task b", false, "u", 0, none, "medium", ""⟩] := by
  unfold reportsAllOutcomes
  decide

/-- C3, amended: when the first failing update is the one for task `t`, every
incomplete task before `t` has been marked complete in the store and stays so
(no rollback), the ids updated so far are exactly the incomplete tasks
preceding `t`, the failure aborts the loop leaving `t` and everything after
it untouched, and only that first error is surfaced. -/
theorem handleFinishDay_first_failure (fails : String → Bool) (pre : List Task) (t : Task)
    (post : List Task)
    (hpre : ∀ u ∈ pre, u.completed = false → fails u.id = false)
    (ht : t.completed = false) (hf : fails t.id = true) :
    handleFinishDay fails (pre ++ t :: post)
      = ⟨(pre.filter (fun u => !u.completed)).map Task.id,
         pre.map markDone ++ t :: post, some t.id⟩ := by
  induction pre with
  | nil => simp [handleFinishDay, ht, hf]
  | cons u us ih =>
    have hrec := ih (fun v hv hvc => hpre v (List.mem_cons_of_mem u hv) hvc)
    cases hu : u.completed with
    | true => simp [handleFinishDay, hu, hrec, markDone_eq_self hu]
    | false =>
      have hfu : fails u.id = false := hpre u (List.mem_cons_self u us) hu
      simp [handleFinishDay, hu, hfu, hrec, markDone]

/-- Witness for C3's amended theorem: a completed task and an incomplete task
precede the failing task `a`; task `b` after it is left untouched. -/
theorem handleFinishDay_first_failure_witness :
    (∀ u ∈ ([⟨"p", "done", true, "u", 0, none, "low", ""⟩,
             ⟨"q", "open", false, "u", 0, none, "medium", ""⟩] : List Task),
        u.completed = false → (u.id == "a") = false)
    ∧ (⟨"a", "failing", false, "u", 0, none, "high", ""⟩ : Task).completed = false
    ∧ (("a" : String) == "a") = true
    ∧ handleFinishDay (fun i => i == "a")
        ([⟨"p", "done", true, "u", 0, none, "low", ""⟩,
          ⟨"q", "open", false, "u", 0, none, "medium", ""⟩]
         ++ ⟨"a", "failing", false, "u", 0, none, "high", ""⟩
            :: [⟨"b", "later", false, "u", 0, none, "low", ""⟩])
      = ⟨(([⟨"p", "done", true, "u", 0, none, "low", ""⟩,
            ⟨"q", "open", false, "u", 0, none, "medium", ""⟩] : List Task).filter
              (fun u => !u.completed)).map Task.id,
         ([⟨"p", "done", true, "u", 0, none, "low", ""⟩,
           ⟨"q", "open", false, "u", 0, none, "medium", ""⟩] : List Task).map markDone
           ++ ⟨"a", "failing", false, "u", 0, none, "high", ""⟩
              :: [⟨"b", "later", false, "u", 0, none, "low", ""⟩],
         some "a"⟩ := by
  refine ⟨by decide, by decide, by decide, ?_⟩
  exact handleFinishDay_first_failure (fun i => i == "a") _ _ _ (by decide) (by decide)
    (by decide)

set_option maxRecDepth 16384 in
/-- C1, counterexample: a collection of 201 tasks with exactly one completed
has some (but not all) tasks completed, yet its progress percent is 0 —
`Math.round(100/201) = 0` — contradicting the claim that the percent then
lies in `[1, 99]` and never rounds to 0. -/
theorem percent_hits_zero_despite_completed :
    (∃ t ∈ (⟨"c", "y", true, "u", 0, none, "medium", ""⟩ : Task)
        :: List.replicate 200 (⟨"i", "x", false, "u", 0, none, "medium", ""⟩ : Task),
        t.completed = true)
    ∧ (∃ t ∈ (⟨"c", "y", true, "u", 0, none, "medium", ""⟩ : Task)
        :: List.replicate 200 (⟨"i", "x", false, "u", 0, none, "medium", ""⟩ : Task),
        t.completed = false)
    ∧ (computeProgress ((⟨"c", "y", true, "u", 0, none, "medium", ""⟩ : Task)
        :: List.replicate 200 (⟨"i", "x", false, "u", 0, none, "medium", ""⟩ : Task))).percent
      = 0 := by
  refine ⟨⟨_, List.mem_cons_self _ _, rfl⟩,
    ⟨_, List.mem_cons_of_mem _ (List.mem_replicate.mpr ⟨by decide, rfl⟩), rfl⟩, ?_⟩
  have hrepl : List.filter (fun t : Task => t.completed)
      (List.replicate 200 (⟨"i", "x", false, "u", 0, none, "medium", ""⟩ : Task)) = [] :=
    List.filter_eq_nil_iff.mpr (fun a ha => by rw [List.eq_of_mem_replicate ha]; decide)
  have hc : completedCount ((⟨"c", "y", true, "u", 0, none, "medium", ""⟩ : Task)
      :: List.replicate 200 (⟨"i", "x", false, "u", 0, none, "medium", ""⟩ : Task)) = 1 := by
    unfold completedCount
    simp [List.filter_cons, hrepl]
  have hl : ((⟨"c", "y", true, "u", 0, none, "medium", ""⟩ : Task)
      :: List.replicate 200 (⟨"i", "x", false, "u", 0, none, "medium", ""⟩ : Task)).length
      = 201 := by
    rw [List.length_cons, List.length_replicate]
  have hp : (computeProgress ((⟨"c", "y", true, "u", 0, none, "medium", ""⟩ : Task)
      :: List.replicate 200 (⟨"i", "x", false, "u", 0, none, "medium", ""⟩ : Task))).percent
      = percent ((⟨"c", "y", true, "u", 0, none, "medium", ""⟩ : Task)
      :: List.replicate 200 (⟨"i", "x", false, "u", 0, none, "medium", ""⟩ : Task)) := rfl
  rw [hp, percent_eq _ (by rw [hl]; decide), hc, hl]

/-- C1, amended: the percent is 0 for an empty collection and 100 for a
nonempty fully-completed one; when some but not all tasks are completed it
lies in `[1, 99]` provided the collection has at most 199 tasks, and in
`[0, 100]` in general — for larger collections the rounding can reach 0 or
100 away from the boundaries. -/
theorem computeProgress_percent_bounds (T : List Task) :
    (T.length = 0 → (computeProgress T).percent = 0)
    ∧ (T.length ≠ 0 → (∀ t ∈ T, t.completed = true) → (computeProgress T).percent = 100)
    ∧ ((∃ t ∈ T, t.completed = true) → (∃ t ∈ T, t.completed = false) → T.length ≤ 199 →
        1 ≤ (computeProgress T).percent ∧ (computeProgress T).percent ≤ 99)
    ∧ (computeProgress T).percent ≤ 100 := by
  have hcle := completedCount_le_length T
  refine ⟨?_, ?_, ?_, ?_⟩
  · intro h
    simp [computeProgress, percent, h]
  · intro hn hall
    have hc : completedCount T = T.length := by
      unfold completedCount
      rw [List.filter_eq_self.mpr hall]
    have h2 : 0 < 2 * T.length := by omega
    show percent T = 100
    rw [percent_eq T hn, hc]
    have hlo : 100 ≤ (200 * T.length + T.length) / (2 * T.length) :=
      (Nat.le_div_iff_mul_le h2).mpr (by omega)
    have hhi : (200 * T.length + T.length) / (2 * T.length) < 101 :=
      (Nat.div_lt_iff_lt_mul h2).mpr (by omega)
    omega
  · intro hsome hnone hlen
    obtain ⟨a, ha, hac⟩ := hsome
    obtain ⟨b, hb, hbc⟩ := hnone
    have hn : T.length ≠ 0 := by
      intro h0
      rw [List.length_eq_zero] at h0
      subst h0
      exact absurd ha (List.not_mem_nil a)
    have hc1 : 1 ≤ completedCount T :=
      List.length_pos.mpr (List.ne_nil_of_mem (List.mem_filter.mpr ⟨ha, hac⟩))
    have hclt : completedCount T < T.length := by
      rcases Nat.lt_or_ge (completedCount T) T.length with h | h
      · exact h
      · exfalso
        have hfeq : T.filter (fun t => t.completed) = T :=
          (List.filter_sublist T).eq_of_length (le_antisymm hcle h)
        have hbf : b ∈ T.filter (fun t => t.completed) := by rw [hfeq]; exact hb
        have hbt := (List.mem_filter.mp hbf).2
        rw [hbc] at hbt
        cases hbt
    have h2 : 0 < 2 * T.length := by omega
    constructor
    · show 1 ≤ percent T
      rw [percent_eq T hn]
      exact (Nat.le_div_iff_mul_le h2).mpr (by omega)
    · show percent T ≤ 99
      rw [percent_eq T hn]
      have hub : (200 * completedCount T + T.length) / (2 * T.length) < 100 :=
        (Nat.div_lt_iff_lt_mul h2).mpr (by omega)
      omega
  · by_cases hn : T.length = 0
    · simp [computeProgress, percent, hn]
    · have h2 : 0 < 2 * T.length := by omega
      show percent T ≤ 100
      rw [percent_eq T hn]
      have hub : (200 * completedCount T + T.length) / (2 * T.length) < 101 :=
        (Nat.div_lt_iff_lt_mul h2).mpr (by omega)
      omega

/-- Witness for C1's amended theorem: one completed and one incomplete task
give 50 percent, inside `[1, 99]`. -/
theorem computeProgress_percent_bounds_witness :
    (∃ t ∈ ([⟨"c", "y", true, "u", 0, none, "medium", ""⟩,
             ⟨"i", "x", false, "u", 0, none, "medium", ""⟩] : List Task), t.completed = true)
    ∧ (∃ t ∈ ([⟨"c", "y", true, "u", 0, none, "medium", ""⟩,
               ⟨"i", "x", false, "u", 0, none, "medium", ""⟩] : List Task), t.completed = false)
    ∧ ([⟨"c", "y", true, "u", 0, none, "medium", ""⟩,
        ⟨"i", "x", false, "u", 0, none, "medium", ""⟩] : List Task).length ≤ 199
    ∧ 1 ≤ (computeProgress [⟨"c", "y", true, "u", 0, none, "medium", ""⟩,
            ⟨"i", "x", false, "u", 0, none, "medium", ""⟩]).percent
    ∧ (computeProgress [⟨"c", "y", true, "u", 0, none, "medium", ""⟩,
        ⟨"i", "x", false, "u", 0, none, "medium", ""⟩]).percent ≤ 99 := by
  refine ⟨by decide, by decide, by decide, ?_, ?_⟩
  · exact ((computeProgress_percent_bounds _).2.2.1 (by decide) (by decide) (by decide)).1
  · exact ((computeProgress_percent_bounds _).2.2.1 (by decide) (by decide) (by decide)).2

/-- C4: the aggregate's completed count is the number of completed tasks, its
total is the collection length, and its percent is 0 for an empty collection
and otherwise the round-half-up value `⌊completed / total * 100 + 1/2⌋`,
which equals the integer computation `(200c + t) / (2t)`; the values the page
renders are computed from the full collection, hence identical under any two
filter states. -/
theorem computeProgress_spec (T : List Task) (now now' : JSDate) (fs fs' : FilterState) :
    (computeProgress T).completedCount = T.countP (fun t => t.completed)
    ∧ (computeProgress T).total = T.length
    ∧ (computeProgress T).percent
        = (if T.length = 0 then 0
           else (⌊(T.countP (fun t => t.completed) : ℚ) / (T.length : ℚ) * 100 + 1/2⌋).toNat)
    ∧ (computeProgress T).percent
        = (if T.length = 0 then 0
           else (200 * T.countP (fun t => t.completed) + T.length) / (2 * T.length))
    ∧ (renderData now fs T).completedCount = (renderData now' fs' T).completedCount
    ∧ (renderData now fs T).percent = (renderData now' fs' T).percent := by
  have hcp := completedCount_eq_countP T
  refine ⟨hcp, rfl, ?_, ?_, rfl, rfl⟩
  · show percent T = _
    rw [← hcp]
    unfold percent jsMathRound
    rfl
  · by_cases hn : T.length = 0
    · rw [if_pos hn]
      show percent T = 0
      simp [percent, hn]
    · rw [if_neg hn, ← hcp]
      show percent T = _
      exact percent_eq T hn

end Todo
